import Mathlib

/-!
Verification development for the orchestration engine of the multi-stage
code-generation pipeline (source files `main.py`, `tools.py`, `workflow.py`).

Python strings are modelled as `List Char`; Python dict-shaped run state is
modelled as a structure holding the fields the orchestration logic reads and
writes.  External collaborators (the text-generation service, process
execution, HTTP/port probes) are modelled as explicit oracle parameters of
each stage's step function, matching the call/return shapes the code uses.
-/

namespace CodeAgent

/-- Python whitespace for `str.strip` (space, tab, newline, carriage return,
vertical tab, form feed). -/
def pyWhitespace (c : Char) : Bool :=
  c = ' ' || c = '\t' || c = '\n' || c = '\r' || c = '\x0b' || c = '\x0c'

/-- Python `str.strip()` on a string viewed as a list of characters. -/
def pyStrip (s : List Char) : List Char :=
  ((s.dropWhile pyWhitespace).reverse.dropWhile pyWhitespace).reverse

/-- First index at which `pat` occurs as a substring of `s`
(Python `s.find(pat)`, with `none` standing for `-1`). -/
def findSub (pat : List Char) : List Char → Option Nat
  | [] => if pat.isPrefixOf ([] : List Char) then some 0 else none
  | c :: s => if pat.isPrefixOf (c :: s) then some 0 else (findSub pat s).map (· + 1)

/-- Python `s.find(pat)` as an integer (`-1` when absent). -/
def pyFind (pat s : List Char) : Int :=
  match findSub pat s with
  | none => -1
  | some i => i

/-- Python `s.find(pat, start)` as an integer (`-1` when absent). -/
def pyFindFrom (pat s : List Char) (start : Nat) : Int :=
  match findSub pat (s.drop start) with
  | none => -1
  | some i => i + start

/-- Python substring containment `pat in s`. -/
def pyContains (s pat : List Char) : Bool :=
  (findSub pat s).isSome

/-- Python slice `s[a:b]` with possibly-negative bounds. -/
def pySlice (s : List Char) (a b : Int) : List Char :=
  let n : Int := s.length
  let norm : Int → Nat := fun i => (if i < 0 then max (n + i) 0 else min i n).toNat
  (s.take (norm b)).drop (norm a)

/-- The `-----BEGIN DIFF-----` sentinel of the response parser. -/
def beginDiffMarker : List Char := "-----BEGIN DIFF-----".data

/-- The `-----END DIFF-----` sentinel of the response parser. -/
def endDiffMarker : List Char := "-----END DIFF-----".data

/-- The language-tagged code-fence opener searched first. -/
def pyFenceTag : List Char := "```python".data

/-- The generic code-fence marker. -/
def fenceTag : List Char := "```".data

/-- `extract_code_from_response` from `main.py` (an identical copy lives in
`workflow.py`): extract a diff/code payload from generated text, preferring
the explicit diff sentinels, then a `python`-tagged fence, then a generic
fence, and finally returning the whole text unchanged.  The Python slices
`content[start:end]` are reproduced exactly, including the `end = -1`
behaviour used when no closing fence is found. -/
def extractCodeFromResponse (content : List Char) : List Char :=
  if (findSub beginDiffMarker content).isSome && (findSub endDiffMarker content).isSome then
    let diffStart : Int := pyFind beginDiffMarker content + (beginDiffMarker.length : Int)
    let diffEnd : Int := pyFind endDiffMarker content
    pyStrip (pySlice content diffStart diffEnd)
  else if pyContains content pyFenceTag then
    let codeStart : Nat := (findSub pyFenceTag content).getD 0 + 9
    let codeEnd : Int := pyFindFrom fenceTag content codeStart
    pyStrip (pySlice content (codeStart : Int) codeEnd)
  else if pyContains content fenceTag then
    let codeStart : Nat := (findSub fenceTag content).getD 0 + 3
    let codeEnd : Int := pyFindFrom fenceTag content codeStart
    pyStrip (pySlice content (codeStart : Int) codeEnd)
  else content

/-- Spec-side predicate: a matched begin/end diff sentinel pair is present. -/
def hasSentinelPair (content : List Char) : Bool :=
  (findSub beginDiffMarker content).isSome && (findSub endDiffMarker content).isSome

/-- Spec-side predicate: a fenced code block is present. -/
def hasFence (content : List Char) : Bool :=
  (findSub fenceTag content).isSome

/-- Spec-side description of the delimited diff region returned in tier one:
the text between the begin sentinel and the end sentinel, stripped. -/
def sentinelRegion (content : List Char) : List Char :=
  pyStrip (pySlice content
    (pyFind beginDiffMarker content + (beginDiffMarker.length : Int))
    (pyFind endDiffMarker content))

/-- Spec-side description of the fenced block contents returned in tier two
(the `python`-tagged fence is preferred over a generic fence). -/
def fencedBlockRegion (content : List Char) : List Char :=
  if pyContains content pyFenceTag then
    let codeStart : Nat := (findSub pyFenceTag content).getD 0 + 9
    pyStrip (pySlice content (codeStart : Int) (pyFindFrom fenceTag content codeStart))
  else
    let codeStart : Nat := (findSub fenceTag content).getD 0 + 3
    pyStrip (pySlice content (codeStart : Int) (pyFindFrom fenceTag content codeStart))

theorem findSub_isSome_of_isPrefixOf {p q : List Char} (s : List Char)
    (hpq : p.isPrefixOf q) (hq : (findSub q s).isSome) : (findSub p s).isSome := by
  induction s with
  | nil =>
      simp only [findSub] at hq ⊢
      rcases q with _ | ⟨c, q⟩
      · have : p = [] := by
          simpa [List.isPrefixOf_iff_prefix] using hpq
        simp [this]
      · simp at hq
  | cons c t ih =>
      simp only [findSub] at hq ⊢
      by_cases hqp : q.isPrefixOf (c :: t)
      · have hp : p.isPrefixOf (c :: t) := by
          rw [List.isPrefixOf_iff_prefix] at hpq hqp ⊢
          exact hpq.trans hqp
        simp [hp]
      · simp only [hqp, if_false] at hq
        have : (findSub q t).isSome := by
          simpa using hq
        have := ih this
        by_cases hp : p.isPrefixOf (c :: t) <;> simp [hp, this]

theorem pySlice_negOne (s : List Char) (a : Nat) :
    pySlice s (a : Int) (-1) = (s.drop a).dropLast := by
  simp only [pySlice]
  have h1 : ((if (-1 : Int) < 0 then max ((s.length : Int) + (-1)) 0
      else min (-1) (s.length : Int))).toNat = s.length - 1 := by
    rw [if_pos (by norm_num)]
    omega
  have h2 : ((if (a : Int) < 0 then max ((s.length : Int) + (a : Int)) 0
      else min (a : Int) (s.length : Int))).toNat = min a s.length := by
    rw [if_neg (by omega)]
    omega
  rw [h1, h2, List.dropLast_eq_take, List.drop_take]
  rcases le_or_lt a s.length with hle | hlt
  · rw [min_eq_left hle]
    have : s.length - 1 - a = (s.drop a).length - 1 := by
      simp [List.length_drop]
      omega
    rw [this]
  · rw [min_eq_right hlt.le]
    have hd : s.drop a = [] := List.drop_eq_nil_of_le hlt.le
    have hd2 : (s.take (s.length - 1)).drop s.length = [] :=
      List.drop_eq_nil_of_le (by simp)
    simp [hd, hd2]

/-- C5: the response parser's diff extraction follows a three-tier
preference: a matched begin/end diff sentinel pair is preferred; otherwise a
fenced code block; otherwise the entire text is returned verbatim (never an
error), so text with no diff markers and no code fence comes back
unchanged. -/
theorem extract_three_tier_preference (content : List Char) :
    (hasSentinelPair content = true →
      extractCodeFromResponse content = sentinelRegion content) ∧
    (hasSentinelPair content = false → hasFence content = true →
      extractCodeFromResponse content = fencedBlockRegion content) ∧
    (hasSentinelPair content = false → hasFence content = false →
      extractCodeFromResponse content = content) := by
  refine ⟨?_, ?_, ?_⟩
  · intro h
    have h' : ((findSub beginDiffMarker content).isSome
        && (findSub endDiffMarker content).isSome) = true := h
    simp only [extractCodeFromResponse, sentinelRegion, h', if_true]
  · intro h1 h2
    have h1' : ((findSub beginDiffMarker content).isSome
        && (findSub endDiffMarker content).isSome) = false := h1
    have h2' : pyContains content fenceTag = true := h2
    by_cases hp : pyContains content pyFenceTag = true
    · simp [extractCodeFromResponse, fencedBlockRegion, h1', hp]
    · simp only [Bool.not_eq_true] at hp
      simp [extractCodeFromResponse, fencedBlockRegion, h1', hp, h2']
  · intro h1 h2
    have h1' : ((findSub beginDiffMarker content).isSome
        && (findSub endDiffMarker content).isSome) = false := h1
    have h2' : (findSub fenceTag content).isSome = false := h2
    have hp : (findSub pyFenceTag content).isSome = false := by
      cases hB : (findSub pyFenceTag content).isSome with
      | false => rfl
      | true =>
          have : (findSub fenceTag content).isSome :=
            findSub_isSome_of_isPrefixOf content (by decide) hB
          rw [h2'] at this
          exact absurd this (by simp)
    simp [extractCodeFromResponse, pyContains, h1', hp, h2']

/-- Witness for C5: text with no recognizable diff markers and no code fence
comes back unchanged from the response parser. -/
theorem extract_three_tier_preference_witness :
    extractCodeFromResponse "plain text with no markers".data
      = "plain text with no markers".data :=
  (extract_three_tier_preference "plain text with no markers".data).2.2
    (by decide) (by decide)

/-- C9: when an opening fence tag has no later closing fence, the extraction
returns the text after the tag with the final character of the input
silently dropped (the Python slice end of `-1`), stripped of surrounding
whitespace. -/
theorem extract_unclosed_fence (content : List Char) (i : Nat) :
    hasSentinelPair content = false →
    ((findSub pyFenceTag content = some i →
        findSub fenceTag (content.drop (i + 9)) = none →
        extractCodeFromResponse content = pyStrip ((content.drop (i + 9)).dropLast)) ∧
     (pyContains content pyFenceTag = false →
        findSub fenceTag content = some i →
        findSub fenceTag (content.drop (i + 3)) = none →
        extractCodeFromResponse content = pyStrip ((content.drop (i + 3)).dropLast))) := by
  intro h
  have hb : ((findSub beginDiffMarker content).isSome
      && (findSub endDiffMarker content).isSome) = false := h
  constructor
  · intro hp hn
    have hpy : pyContains content pyFenceTag = true := by simp [pyContains, hp]
    simp only [extractCodeFromResponse, hb, Bool.false_eq_true, if_false, hpy, if_true,
      hp, Option.getD_some, pyFindFrom, hn]
    push_cast
    exact congrArg pyStrip (pySlice_negOne content (i + 9))
  · intro hnopy hp hn
    have hfc : pyContains content fenceTag = true := by simp [pyContains, hp]
    simp only [extractCodeFromResponse, hb, Bool.false_eq_true, if_false, hnopy, hfc,
      if_true, hp, Option.getD_some, pyFindFrom, hn]
    push_cast
    exact congrArg pyStrip (pySlice_negOne content (i + 3))

/-- Witness for C9: concrete inputs with an unclosed `python`-tagged fence
and an unclosed generic fence. -/
theorem extract_unclosed_fence_witness :
    extractCodeFromResponse "see ```python\nx = 1".data
      = pyStrip (("see ```python\nx = 1".data.drop 13).dropLast) ∧
    extractCodeFromResponse "pre ```\nabc".data
      = pyStrip (("pre ```\nabc".data.drop 7).dropLast) :=
  ⟨(extract_unclosed_fence "see ```python\nx = 1".data 4 (by decide)).1
      (by decide) (by decide),
   (extract_unclosed_fence "pre ```\nabc".data 4 (by decide)).2
      (by decide) (by decide) (by decide)⟩

/-- A workspace: a map from file paths to file contents.  Directories are
implicit: the source's `os.makedirs` call has no further observable effect
in this model beyond letting the nested write succeed. -/
def Workspace := List Char → Option (List Char)

/-- Writing (or overwriting) one file, Python `open(path, "w")`. -/
def writeFile (ws : Workspace) (path content : List Char) : Workspace :=
  fun q => if q = path then some content else ws q

/-- Python `s.split(sep)` for a one-character separator: split at every
occurrence, keeping empty pieces. -/
def pySplitChar (sep : Char) : List Char → List (List Char)
  | [] => [[]]
  | c :: t =>
    if c = sep then [] :: pySplitChar sep t
    else
      match pySplitChar sep t with
      | [] => [[c]]
      | l :: ls => (c :: l) :: ls

/-- The `*** Add File:` marker of the whole-file patch dialect. -/
def addFileMarker : List Char := "*** Add File:".data

/-- The `*** Update File:` marker of the whole-file patch dialect. -/
def updateFileMarker : List Char := "*** Update File:".data

/-- The `*** End Patch` terminator of the whole-file patch dialect. -/
def endPatchMarker : List Char := "*** End Patch".data

/-- A line at which body collection stops inside `fs_write_patch`. -/
def isMarkerLine (l : List Char) : Bool :=
  addFileMarker.isPrefixOf l || updateFileMarker.isPrefixOf l || endPatchMarker.isPrefixOf l

/-- Python `line.split(":", 1)[1]`: everything after the first colon. -/
def afterFirstColon (l : List Char) : List Char :=
  match l.dropWhile (fun c => c != ':') with
  | [] => []
  | _ :: t => t

/-- The target path of a marker line: `line.split(":", 1)[1].strip()`. -/
def markerPath (l : List Char) : List Char :=
  pyStrip (afterFirstColon l)

/-- The body clean-up `fs_write_patch` applies to an `Add File` body:
strip, drop one leading fence opener, drop one trailing fence, drop any
remaining fence lines, and strip once more before writing. -/
def cleanAddBody (content : List (List Char)) : List Char :=
  let cs := pyStrip (List.intercalate ['\n'] content)
  let cs := if pyFenceTag.isPrefixOf cs then pyStrip (cs.drop 9)
    else if fenceTag.isPrefixOf cs then pyStrip (cs.drop 3) else cs
  let cs := if fenceTag.isSuffixOf cs then pyStrip (cs.take (cs.length - 3)) else cs
  let kept := (pySplitChar '\n' cs).filter fun l =>
    !(pyStrip l == fenceTag) && !(fenceTag.isPrefixOf (pyStrip l))
      && !(fenceTag.isSuffixOf (pyStrip l))
  pyStrip (List.intercalate ['\n'] kept)

/-- The body clean-up `fs_write_patch` applies to an `Update File` body. -/
def cleanUpdBody (content : List (List Char)) : List Char :=
  let cs := List.intercalate ['\n'] content
  let cs := if ("```python\n".data).isPrefixOf cs then cs.drop 10 else cs
  let cs := if ("\n```".data).isSuffixOf cs then cs.take (cs.length - 4) else cs
  pyStrip cs

/-- Parsing position of the `fs_write_patch` line scan. -/
inductive PatchMode where
  | idle : PatchMode
  | adding (path : List Char) (content : List (List Char)) : PatchMode
  | updSeek (path : List Char) : PatchMode
  | updCollect (path : List Char) (content : List (List Char)) : PatchMode

/-- Accumulated writes plus current parsing position. -/
structure PatchAcc where
  writes : List (List Char × List Char)
  mode : PatchMode

/-- Handling of one line when no body is being collected: an `Add File`
marker or an `Update File` marker opens a file, anything else is skipped. -/
def patchHandleIdle (acc : List (List Char × List Char)) (l : List Char) : PatchAcc :=
  if addFileMarker.isPrefixOf l then ⟨acc, .adding (markerPath l) []⟩
  else if updateFileMarker.isPrefixOf l then ⟨acc, .updSeek (markerPath l)⟩
  else ⟨acc, .idle⟩

/-- One step of the `fs_write_patch` line scan.  In an `Add File` body,
`---` separator lines and `@@` hunk lines are skipped; any marker line
flushes the current file and is reconsidered.  In an `Update File` body the
scan first seeks a `---` line, then collects every line until a marker. -/
def patchLine (st : PatchAcc) (l : List Char) : PatchAcc :=
  match st.mode with
  | .idle => patchHandleIdle st.writes l
  | .adding p c =>
      if isMarkerLine l then
        patchHandleIdle (st.writes ++ [(p, cleanAddBody c)]) l
      else if pyStrip l == "---".data || ("@@".data).isPrefixOf l then
        ⟨st.writes, .adding p c⟩
      else ⟨st.writes, .adding p (c ++ [l])⟩
  | .updSeek p =>
      if ("---".data).isPrefixOf (pyStrip l) then ⟨st.writes, .updCollect p []⟩
      else ⟨st.writes, .updSeek p⟩
  | .updCollect p c =>
      if isMarkerLine l then
        patchHandleIdle (st.writes ++ [(p, cleanUpdBody c)]) l
      else ⟨st.writes, .updCollect p (c ++ [l])⟩

/-- End of input: a file whose body is still being collected is written;
an `Update File` whose `---` line never arrived is written with the empty
body, exactly as the source's unconditional write does. -/
def patchFinish (st : PatchAcc) : List (List Char × List Char) :=
  match st.mode with
  | .idle => st.writes
  | .adding p c => st.writes ++ [(p, cleanAddBody c)]
  | .updSeek p => st.writes ++ [(p, cleanUpdBody [])]
  | .updCollect p c => st.writes ++ [(p, cleanUpdBody c)]

/-- `fs_write_patch` from `tools.py`, parsing part: the ordered sequence of
`(path, content)` writes the patch performs on
`unified_diff.strip().split("\n")`. -/
def fsWritePatchWrites (unifiedDiff : List Char) : List (List Char × List Char) :=
  patchFinish ((pySplitChar '\n' (pyStrip unifiedDiff)).foldl patchLine ⟨[], .idle⟩)

/-- `fs_write_patch` from `tools.py`: apply all parsed writes, in order, to
the workspace. -/
def fsWritePatch (unifiedDiff : List Char) (ws : Workspace) : Workspace :=
  (fsWritePatchWrites unifiedDiff).foldl (fun w pc => writeFile w pc.1 pc.2) ws

/-- The success flag of `fs_write_patch`: true exactly when at least one
file was identified and written. -/
def fsWritePatchOk (unifiedDiff : List Char) : Bool :=
  !(fsWritePatchWrites unifiedDiff).isEmpty

/-- C4: for every workspace, applying the whole-file-marker diff
`*** Add File: a/b.txt` followed by the body line `hello` creates the file
`a/b.txt` with content exactly `hello`, with no fence artifacts. -/
theorem fsWritePatch_roundtrip (ws : Workspace) :
    fsWritePatch "*** Add File: a/b.txt\nhello".data ws "a/b.txt".data
      = some "hello".data ∧
    fsWritePatchWrites "*** Add File: a/b.txt\nhello".data
      = [("a/b.txt".data, "hello".data)] := by
  have hw : fsWritePatchWrites "*** Add File: a/b.txt\nhello".data
      = [("a/b.txt".data, "hello".data)] := by decide
  refine ⟨?_, hw⟩
  simp [fsWritePatch, hw, writeFile]

/-- A structured document stored in the run record: either the dictionary a
successful YAML extraction produced (abstracted as key/value pairs) or the
`{"error": message}` document an `except` branch stores. -/
inductive PyDoc where
  | parsed (d : List (String × String)) : PyDoc
  | errorDoc (msg : List Char) : PyDoc
  deriving DecidableEq

/-- The Architect's spec document, projected to the keys the orchestration
inspects (`project_type` and `deployment.ports`); `errKey` models the
`{"error": message}` document stored on failure. -/
structure SpecDoc where
  project_type : Option String := none
  backend_port : Option Nat := none
  frontend_port : Option Nat := none
  errKey : Option (List Char) := none
  deriving DecidableEq

/-- The Runner's test-output document `{exit_code, stdout, stderr}`;
`exit_code = none` models the initial empty dict with no such key. -/
structure TestOut where
  exit_code : Option Int := none
  stdout : List Char := []
  stderr : List Char := []
  deriving DecidableEq

/-- The Reviewer's document, projected to the `status` key the conductor
and router read. -/
structure ReviewDoc where
  status : Option String := none
  deriving DecidableEq

/-- One entry of the conductor's `service_checks` list. -/
structure ServiceCheck where
  port : Nat
  path : List Char
  expected : List Char
  deriving DecidableEq

/-- The conductor's control document.  Optional fields are `none` while the
initial empty dict has no such key; `preview_info` records whether the
Preview stage added its `preview_info` entry. -/
structure ControlDoc where
  next_action : Option String := none
  rationale : Option String := none
  checkpoint_required : Option Bool := none
  checkpoint_reason : Option (Option String) := none
  service_checks : List ServiceCheck := []
  preview_info : Bool := false
  deriving DecidableEq

/-- The run record (`FlowState` in `main.py`), restricted to the fields the
orchestration logic reads or writes.  The nested dicts `services_status` and
`build_status` are projected to the single key each consumer reads
(`healthy`, `code_generated`), with the Python `dict.get(key, False)`
default folded into the `Bool`.  Field defaults are the values
`run_workflow` puts in the initial state. -/
structure FlowState where
  user_prompt : List Char := []
  plan : PyDoc := .parsed []
  spec : SpecDoc := {}
  diff : List Char := []
  tests : List Char := []
  test_guide : List Char := []
  test_output : TestOut := {}
  review : ReviewDoc := {}
  control : ControlDoc := {}
  iteration : Nat := 0
  last_diff_summary : List Char := []
  tests_present : Bool := false
  review_done : Bool := false
  code_changed_since_last_test : Bool := false
  MAX_ITER : Nat := 5
  project_type : String := "simple"
  services_status_healthy : Bool := false
  build_status_code_generated : Bool := false
  project_dir : List Char := []
  deriving DecidableEq

/-- The initial run record built by `run_workflow` in `main.py`: empty
artifacts, iteration 0, `MAX_ITER = 5`, project type `simple`. -/
def initialFlowState (prompt : List Char) : FlowState := { user_prompt := prompt }

/-- The non-budget decision chain of `conductor_node` in `main.py` (the
branches before the iteration-limit check), producing the tentative
`(next_action, rationale)` pair. -/
def tentativeDecision (s : FlowState) : String × String :=
  if s.diff.isEmpty then ("PATCH_CODE", "No code present")
  else if s.project_type = "full_stack" ∧ s.code_changed_since_last_test then
    if ¬ s.services_status_healthy then
      ("START_SERVICES", "Full-stack code ready, need to start/check services")
    else ("RUN_TESTS", "Services healthy, ready for tests")
  else if s.code_changed_since_last_test then
    ("RUN_TESTS", "Code changed since last test")
  else if s.test_output.exit_code = some 0 ∧ ¬ s.review_done then
    ("REVIEW", "Tests passing, ready for review")
  else if s.review.status = some "APPROVED" then
    ("PREVIEW", "Code approved")
  else ("PATCH_CODE", "Issues found, need to fix")

/-- The service checks `conductor_node` derives from the spec's deployment
ports for a full-stack project.  A port value of `0` is falsy in Python and
is skipped exactly like an absent one. -/
def controlServiceChecks (spec : SpecDoc) : List ServiceCheck :=
  (match spec.backend_port with
   | some p => if p ≠ 0 then [⟨p, "/health".data, "200".data⟩] else []
   | none => []) ++
  (match spec.frontend_port with
   | some p => if p ≠ 0 then [⟨p, "/".data, "200".data⟩] else []
   | none => [])

/-- The control document `conductor_node` in `main.py` produces: the
decision chain computes a tentative action, then the iteration-budget check
overrides it, then the checkpoint flag and the full-stack service checks
are attached. -/
def conductorControl (s : FlowState) : ControlDoc :=
  let na_ra : String × String :=
    if s.diff.isEmpty then ("PATCH_CODE", "No code present")
    else if s.project_type = "full_stack" ∧ s.code_changed_since_last_test then
      if ¬ s.services_status_healthy then
        ("START_SERVICES", "Full-stack code ready, need to start/check services")
      else ("RUN_TESTS", "Services healthy, ready for tests")
    else if s.code_changed_since_last_test then
      ("RUN_TESTS", "Code changed since last test")
    else if s.test_output.exit_code = some 0 ∧ ¬ s.review_done then
      ("REVIEW", "Tests passing, ready for review")
    else if s.review.status = some "APPROVED" then
      ("PREVIEW", "Code approved")
    else ("PATCH_CODE", "Issues found, need to fix")
  let na_ra : String × String :=
    if s.iteration ≥ s.MAX_ITER then
      ("PREVIEW", "Maximum iterations reached, showing preview")
    else na_ra
  { next_action := some na_ra.1
    rationale := some na_ra.2
    checkpoint_required := some (decide (s.iteration > 0) && decide (s.iteration % 8 = 0))
    checkpoint_reason :=
      some (if s.iteration % 8 = 0 then some "Periodic checkpoint" else none)
    service_checks :=
      if s.project_type = "full_stack" then controlServiceChecks s.spec else []
    preview_info := false }

/-- `conductor_node`: store the fresh control document and increment the
iteration counter.  (The state snapshot the source also stores duplicates
fields this model already tracks.) -/
def conductorStep (s : FlowState) : FlowState :=
  { s with control := conductorControl s, iteration := s.iteration + 1 }

/-- C1: the conductor computes a tentative action from the non-budget
branches and only then overrides it with `PREVIEW` when
`iteration >= MAX_ITER`; in particular a record with `iteration = 5` and
`MAX_ITER = 5` yields `PREVIEW` regardless of every other field. -/
theorem conductor_budget_override (s : FlowState) :
    (conductorControl s).next_action =
      some (if s.iteration ≥ s.MAX_ITER then "PREVIEW" else (tentativeDecision s).1) ∧
    (conductorStep { s with iteration := 5, MAX_ITER := 5 }).control.next_action =
      some "PREVIEW" := by
  constructor
  · by_cases h : s.iteration ≥ s.MAX_ITER
    · simp [conductorControl, h]
    · simp only [conductorControl, tentativeDecision, h, if_false, if_neg h]
  · simp [conductorStep, conductorControl]

/-- C2: the conductor's `next_action` is always one of the five actions
`PATCH_CODE`, `RUN_TESTS`, `START_SERVICES`, `REVIEW`, `PREVIEW` (the spec's
PatchCode, RunTests, StartServices, Review, Preview) and never any other
value. -/
theorem conductor_action_enumeration (s : FlowState) :
    (conductorStep s).control.next_action ∈
      ([some "PATCH_CODE", some "RUN_TESTS", some "START_SERVICES",
        some "REVIEW", some "PREVIEW"] : List (Option String)) := by
  simp only [conductorStep, conductorControl]
  split_ifs <;> simp

/-- C8: the conductor's checkpoint flag is true exactly when
`iteration > 0 && iteration % 8 == 0`; over iterations 0 through 16 it is
true only at 8 and 16. -/
theorem conductor_checkpoint_rule (s : FlowState) :
    (conductorControl s).checkpoint_required =
      some (decide (0 < s.iteration) && decide (s.iteration % 8 = 0)) ∧
    (s.iteration ≤ 16 →
      ((conductorControl s).checkpoint_required = some true ↔
        s.iteration = 8 ∨ s.iteration = 16)) := by
  constructor
  · rfl
  · intro h
    simp only [conductorControl, Option.some_inj, Bool.and_eq_true, decide_eq_true_iff]
    omega

/-- Witness for C8 at iteration 8: the checkpoint flag is raised. -/
theorem conductor_checkpoint_rule_witness :
    (conductorControl { iteration := 8 }).checkpoint_required = some true :=
  ((conductor_checkpoint_rule { iteration := 8 }).2 (by norm_num)).mpr (Or.inl rfl)

/-- What a stage's single collaborator call produced: the stage-relevant
value on success, or the text of the exception the broad `except` branch
caught. -/
inductive StageOutcome (α : Type) where
  | ok (value : α) : StageOutcome α
  | fail (err : List Char) : StageOutcome α

/-- `planner_node`: store the parsed plan document; on failure store the
`{"error": message}` document. -/
def plannerStep (o : StageOutcome (List (String × String))) (s : FlowState) : FlowState :=
  match o with
  | .ok d => { s with plan := .parsed d }
  | .fail e => { s with plan := .errorDoc e }

/-- The Architect's successful outcome: the parsed spec document plus the
truth value of the source's textual full-stack test (`"frontend" in
str(spec) or "backend" in str(spec) or "api"/"app"/"fastapi"/"react" in
user_prompt.lower()`), which is a pure function of the generated text. -/
structure ArchRes where
  spec : SpecDoc
  textIndicators : Bool

/-- `architect_node`: store the spec and classify the project kind; on
failure store the error document and fall back to `simple`. -/
def architectStep (o : StageOutcome ArchRes) (s : FlowState) : FlowState :=
  match o with
  | .ok r =>
      let pt := r.spec.project_type.getD "simple"
      if pt = "full_stack" ∨ r.textIndicators then
        { s with spec := r.spec, project_type := "full_stack" }
      else
        { s with spec := r.spec, project_type := "simple" }
  | .fail e => { s with spec := { errKey := some e }, project_type := "simple" }

/-- The Coder's successful outcome: the accumulated diff text and the files
its tool calls created.  (The diff text itself is collaborator output.) -/
structure CoderRes where
  diff_content : List Char
  files_created : List (List Char)

/-- `coder_node` (`main.py`): store the diff, mark the code changed, and
for a full-stack project with a non-empty diff record a completed build.
On failure store an empty diff and the error summary (the code-changed flag
is not touched).  The numeric/file-list rendering inside
`last_diff_summary` is kept abbreviated; no consumer inspects it. -/
def coderStep (o : StageOutcome CoderRes) (s : FlowState) : FlowState :=
  match o with
  | .ok r =>
      let s1 := { s with
                  diff := r.diff_content
                  last_diff_summary :=
                    "Generated code: ".data ++ (toString r.diff_content.length).data
                      ++ " chars".data
                  code_changed_since_last_test := true }
      if ¬ r.diff_content.isEmpty ∧ s.project_type = "full_stack" then
        { s1 with build_status_code_generated := true }
      else s1
  | .fail e => { s with diff := [], last_diff_summary := "Error: ".data ++ e }

/-- The `-----BEGIN TEST_GUIDE-----` sentinel of the Tester. -/
def beginGuideMarker : List Char := "-----BEGIN TEST_GUIDE-----".data

/-- The `-----END TEST_GUIDE-----` sentinel of the Tester. -/
def endGuideMarker : List Char := "-----END TEST_GUIDE-----".data

/-- `tester_node`: extract tests and the test guide from the generated
text; `tests_present` is true exactly when the stripped tests are
non-empty.  On failure store the degraded defaults. -/
def testerStep (o : StageOutcome (List Char)) (s : FlowState) : FlowState :=
  match o with
  | .ok content =>
      let tests := extractCodeFromResponse content
      let guide :=
        if (findSub beginGuideMarker content).isSome
            && (findSub endGuideMarker content).isSome then
          pyStrip (pySlice content
            (pyFind beginGuideMarker content + (beginGuideMarker.length : Int))
            (pyFind endGuideMarker content))
        else
          "how_to_run: python_test_runner\ntest_strategy: unit\nnotes:\n  - Basic test execution".data
      { s with
        tests := tests
        test_guide := guide
        tests_present := !(pyStrip tests).isEmpty }
  | .fail _ =>
      { s with
        tests := "# No tests generated".data
        test_guide := "how_to_run: python_test_runner".data
        tests_present := false }

/-- The Runner's successful path, parameterised by its collaborators:
`needsFix k` is the `needs_fixing` flag of the k-th `check_and_run_code`
call, `fixApplied k` whether auto-fix attempt `k` applied any fix (the
`basic_fix_applied or ai_fix_applied` disjunction), the test-runner result
fields, and the success of each service probe (false also when the probe
raised). -/
structure RunnerOk where
  needsFix : Nat → Bool
  fixApplied : Nat → Bool
  test_exit_code : Int
  test_stdout : List Char
  test_stderr : List Char
  probeSuccess : Nat → Bool

/-- `runner_node`: store the test output, clear the code-changed flag, and
for a full-stack project recompute the services health from the control's
service checks (`healthy` is true when the check list is empty or every
probe succeeded).  On an exception anywhere in the stage body, store a test
output with exit code 1 and the exception text as stderr; the code-changed
flag is cleared on both paths.  The auto-fix loop mutates only the on-disk
project, counted separately by `runnerExecutionCount`. -/
def runnerStep (o : StageOutcome RunnerOk) (s : FlowState) : FlowState :=
  match o with
  | .ok r =>
      let base := { s with
        test_output := { exit_code := some r.test_exit_code,
                         stdout := r.test_stdout, stderr := r.test_stderr }
        code_changed_since_last_test := false }
      if s.project_type = "full_stack" then
        let checks := s.control.service_checks
        { base with services_status_healthy :=
            checks.isEmpty || (List.range checks.length).all r.probeSuccess }
      else base
  | .fail e =>
      { s with
        test_output := { exit_code := some 1, stdout := [], stderr := e }
        code_changed_since_last_test := false }

/-- `reviewer_node`: the successful outcome carries the review status after
the source's fallback (a `status` key, else `APPROVED`/`CHANGES_REQUIRED`
from the response text).  A full-stack project whose build never recorded
generated code downgrades an `APPROVED` status to `CHANGES_REQUIRED`.  On
failure the review is `CHANGES_REQUIRED`.  Both paths set `review_done`. -/
def reviewerStep (o : StageOutcome String) (s : FlowState) : FlowState :=
  match o with
  | .ok status =>
      let finalStatus :=
        if s.project_type = "full_stack" ∧ ¬ s.build_status_code_generated
            ∧ status = "APPROVED" then
          "CHANGES_REQUIRED"
        else status
      { s with review := { status := some finalStatus }, review_done := true }
  | .fail _ =>
      { s with review := { status := some "CHANGES_REQUIRED" }, review_done := true }

/-- `fixer_node`: extract the fix diff from the generated text, store it,
mark the code changed and reset `review_done`.  On failure the diff is
re-stored unchanged and nothing else moves. -/
def fixerStep (o : StageOutcome (List Char)) (s : FlowState) : FlowState :=
  match o with
  | .ok content =>
      let diff := extractCodeFromResponse content
      { s with
        diff := diff
        last_diff_summary :=
          "Fixed ".data ++ (toString diff.length).data ++ " chars (".data
            ++ s.project_type.data ++ ")".data
        code_changed_since_last_test := true
        review_done := false }
  | .fail _ => { s with diff := s.diff }

/-- `service_manager_node`: a non-full-stack record passes through
untouched.  Otherwise the non-error path sets `services_status.healthy`
to true unconditionally — the port-check results (`portOpen`) only shape
the informational per-service sub-document, which no consumer reads.  An
exception sets `healthy` to false. -/
def serviceManagerStep (o : StageOutcome (Nat → Bool)) (s : FlowState) : FlowState :=
  if s.project_type ≠ "full_stack" then s
  else
    match o with
    | .ok _portOpen => { s with services_status_healthy := true }
    | .fail _ => { s with services_status_healthy := false }

/-- `preview_node`: attach the preview information to the control document
(its contents are informational only). -/
def previewStep (s : FlowState) : FlowState :=
  { s with control := { s.control with preview_info := true } }

/-- One invocation of one stage node, carrying the collaborator outcome the
invocation consumed. -/
inductive StageEvent where
  | planner (o : StageOutcome (List (String × String))) : StageEvent
  | architect (o : StageOutcome ArchRes) : StageEvent
  | coder (o : StageOutcome CoderRes) : StageEvent
  | conductor : StageEvent
  | tester (o : StageOutcome (List Char)) : StageEvent
  | runner (o : StageOutcome RunnerOk) : StageEvent
  | reviewer (o : StageOutcome String) : StageEvent
  | fixer (o : StageOutcome (List Char)) : StageEvent
  | serviceManager (o : StageOutcome (Nat → Bool)) : StageEvent
  | preview : StageEvent

/-- Dispatch one stage invocation to its step function. -/
def applyEvent : StageEvent → FlowState → FlowState
  | .planner o, s => plannerStep o s
  | .architect o, s => architectStep o s
  | .coder o, s => coderStep o s
  | .conductor, s => conductorStep s
  | .tester o, s => testerStep o s
  | .runner o, s => runnerStep o s
  | .reviewer o, s => reviewerStep o s
  | .fixer o, s => fixerStep o s
  | .serviceManager o, s => serviceManagerStep o s
  | .preview, s => previewStep s

/-- A run: fold a sequence of stage invocations over a starting record. -/
def runEvents (evs : List StageEvent) (s : FlowState) : FlowState :=
  evs.foldl (fun t e => applyEvent e t) s

/-- Whether an invocation is a Conductor invocation. -/
def StageEvent.isConductor : StageEvent → Bool
  | .conductor => true
  | _ => false

theorem applyEvent_iteration (e : StageEvent) (s : FlowState) :
    (applyEvent e s).iteration =
      s.iteration + (if e.isConductor then 1 else 0) := by
  cases e with
  | planner o => cases o <;> rfl
  | architect o =>
      cases o with
      | ok r =>
          simp only [applyEvent, architectStep]
          split <;> rfl
      | fail msg => rfl
  | coder o =>
      cases o with
      | ok r =>
          simp only [applyEvent, coderStep]
          split <;> rfl
      | fail msg => rfl
  | conductor => rfl
  | tester o => cases o <;> rfl
  | runner o =>
      cases o with
      | ok r =>
          simp only [applyEvent, runnerStep]
          split <;> rfl
      | fail msg => rfl
  | reviewer o => cases o <;> rfl
  | fixer o => cases o <;> rfl
  | serviceManager o =>
      simp only [applyEvent, serviceManagerStep]
      split
      · rfl
      · cases o <;> rfl
  | preview => rfl

/-- C7: each Conductor call increments `iteration` by exactly one and no
stage invocation ever decreases it, so a run that starts from the initial
record and contains exactly N Conductor invocations (and any number of
other stage invocations) ends with `iteration = N`. -/
theorem iteration_counts_conductor_calls :
    (∀ (s : FlowState) (evs : List StageEvent),
      (runEvents evs s).iteration =
        s.iteration + evs.countP StageEvent.isConductor) ∧
    (∀ (prompt : List Char) (evs : List StageEvent),
      (runEvents evs (initialFlowState prompt)).iteration =
        evs.countP StageEvent.isConductor) := by
  have main : ∀ (evs : List StageEvent) (s : FlowState),
      (runEvents evs s).iteration =
        s.iteration + evs.countP StageEvent.isConductor := by
    intro evs
    induction evs with
    | nil => intro s; simp [runEvents]
    | cons e t ih =>
        intro s
        have h1 : runEvents (e :: t) s = runEvents t (applyEvent e s) := by
          simp [runEvents]
        rw [h1, ih (applyEvent e s), applyEvent_iteration e s, List.countP_cons]
        by_cases hc : e.isConductor <;> (simp [hc]; try omega)
  refine ⟨fun s evs => main evs s, fun prompt evs => ?_⟩
  rw [main evs (initialFlowState prompt)]
  simp [initialFlowState]

/-- C6: every stage executor is a total function of the run record — the
embedding of each stage covers its `except` branch — and every collaborator
failure is recorded in the run record as a degraded default: an error plan
or spec document, an empty diff, placeholder tests, a test output with exit
code 1 and the exception text as synthetic stderr, a changes-required
review, an unhealthy services status.  The stage always returns a
well-formed record. -/
theorem stage_failures_recorded_as_defaults (s : FlowState) (e : List Char) :
    (plannerStep (.fail e) s).plan = .errorDoc e ∧
    (architectStep (.fail e) s).spec = { errKey := some e } ∧
    (architectStep (.fail e) s).project_type = "simple" ∧
    (coderStep (.fail e) s).diff = [] ∧
    (testerStep (.fail e) s).tests = "# No tests generated".data ∧
    (testerStep (.fail e) s).tests_present = false ∧
    (runnerStep (.fail e) s).test_output =
      { exit_code := some 1, stdout := [], stderr := e } ∧
    (runnerStep (.fail e) s).code_changed_since_last_test = false ∧
    (reviewerStep (.fail e) s).review = { status := some "CHANGES_REQUIRED" } ∧
    (reviewerStep (.fail e) s).review_done = true ∧
    (fixerStep (.fail e) s).diff = s.diff ∧
    (serviceManagerStep (.fail e)
        { s with project_type := "full_stack" }).services_status_healthy = false := by
  refine ⟨rfl, rfl, rfl, rfl, rfl, rfl, rfl, rfl, rfl, rfl, rfl, ?_⟩
  simp [serviceManagerStep]

/-- C10: a Service-Check execution on a full-stack record that completes
its non-error path sets `services_status.healthy` to true unconditionally —
even when every port check reports the port closed — so the Conductor call
that follows a single StartServices action, with the code still marked
changed, selects RUN_TESTS rather than START_SERVICES again (absent the
budget override). -/
theorem service_check_marks_healthy (s : FlowState) (portOpen : Nat → Bool)
    (hfs : s.project_type = "full_stack") :
    (serviceManagerStep (.ok portOpen) s).services_status_healthy = true ∧
    (s.diff ≠ [] → s.code_changed_since_last_test = true →
      s.iteration < s.MAX_ITER →
      (conductorStep (serviceManagerStep (.ok portOpen) s)).control.next_action =
        some "RUN_TESTS") := by
  have hsm : serviceManagerStep (.ok portOpen) s
      = { s with services_status_healthy := true } := by
    simp [serviceManagerStep, hfs]
  constructor
  · rw [hsm]
  · intro hd hc hi
    rw [hsm]
    have hne : ¬ (s.iteration ≥ s.MAX_ITER) := Nat.not_le.mpr hi
    simp [conductorStep, conductorControl, hfs, hc, hd, hne]

/-- Witness for C10: a concrete full-stack record with a present diff and
every port closed still comes out of Service-Check healthy and is routed to
RUN_TESTS by the next Conductor call. -/
theorem service_check_marks_healthy_witness :
    (serviceManagerStep (.ok (fun _ => false))
      { diff := ['x'], project_type := "full_stack",
        code_changed_since_last_test := true }).services_status_healthy = true ∧
    (conductorStep (serviceManagerStep (.ok (fun _ => false))
      { diff := ['x'], project_type := "full_stack",
        code_changed_since_last_test := true })).control.next_action =
      some "RUN_TESTS" := by
  have h := service_check_marks_healthy
    { diff := ['x'], project_type := "full_stack", code_changed_since_last_test := true }
    (fun _ => false) rfl
  exact ⟨h.1, h.2 (by simp) rfl (by norm_num)⟩

/-- The Runner's auto-fix loop (`runner_node` in `main.py`): `fuel` is the
number of fix attempts still allowed (`max_fix_attempts - fix_attempt`),
`attempt` the attempts already made, `execCount` the `check_and_run_code`
calls already performed, `needs` the `needs_fixing` flag of the last call.
While the last call needs fixing and fuel remains, one more attempt is
made; a re-execution happens only when the attempt applied a fix
(`fixApplied`), otherwise the loop breaks at once.  The returned value is
the total number of `check_and_run_code` calls. -/
def autoFixAux (needsFix fixApplied : Nat → Bool) :
    Nat → Nat → Nat → Bool → Nat
  | 0, _, execCount, _ => execCount
  | fuel+1, attempt, execCount, needs =>
    if needs then
      if fixApplied (attempt + 1) then
        autoFixAux needsFix fixApplied fuel (attempt + 1) (execCount + 1)
          (needsFix (execCount + 1))
      else execCount
    else execCount

/-- Total number of `check_and_run_code` calls — each of which executes the
project's entry point once when it exists — performed by one Run
invocation: the initial call before the loop, then the auto-fix loop
bounded at `max_fix_attempts = 3`. -/
def runnerExecutionCount (needsFix fixApplied : Nat → Bool) : Nat :=
  autoFixAux needsFix fixApplied 3 0 1 (needsFix 1)

theorem autoFixAux_le (nf fa : Nat → Bool) :
    ∀ (fuel attempt execCount : Nat) (needs : Bool),
      autoFixAux nf fa fuel attempt execCount needs ≤ execCount + fuel := by
  intro fuel
  induction fuel with
  | zero => intro attempt execCount needs; simp [autoFixAux]
  | succ n ih =>
      intro attempt execCount needs
      simp only [autoFixAux]
      split
      · split
        · exact le_trans (ih (attempt + 1) (execCount + 1) (nf (execCount + 1)))
            (by omega)
        · omega
      · omega

theorem autoFixAux_stop (nf fa : Nat → Bool) :
    ∀ (fuel attempt execCount : Nat) (needs : Bool) (k : Nat),
      k < fuel → fa (attempt + k + 1) = false →
      autoFixAux nf fa fuel attempt execCount needs ≤ execCount + k := by
  intro fuel
  induction fuel with
  | zero =>
      intro attempt execCount needs k hk _
      exact absurd hk (Nat.not_lt_zero k)
  | succ n ih =>
      intro attempt execCount needs k hk hfa
      simp only [autoFixAux]
      split
      · split
        · rename_i hfa1
          cases k with
          | zero =>
              simp only [Nat.add_zero] at hfa
              rw [hfa1] at hfa
              exact absurd hfa (by simp)
          | succ k2 =>
              have hrec := ih (attempt + 1) (execCount + 1) (nf (execCount + 1)) k2
                (by omega)
                (by
                  have harr : attempt + 1 + k2 + 1 = attempt + (k2 + 1) + 1 := by omega
                  rw [harr]; exact hfa)
              omega
        · omega
      · omega

/-- Counterexample to C3 as stated: with code that keeps failing while
every attempt applies a fix, one Run invocation executes the entry point 4
times (1 initial + 3 fix-triggered re-runs), not at most 3. -/
theorem autofix_three_executions_refuted :
    ¬ (runnerExecutionCount (fun _ => true) (fun _ => true) ≤ 3) := by decide

/-- C3 (amended): one Run invocation performs at most 3 fix attempts, hence
at most 4 executions of the project's entry point in total (one initial
check plus one re-execution per fix-applying attempt), and the loop stops
immediately after the first attempt in which no fix was applied: if attempt
`k+1` applies no fix, at most `k+1` executions happen in total. -/
theorem autofix_loop_bounds :
    (∀ needsFix fixApplied : Nat → Bool,
      runnerExecutionCount needsFix fixApplied ≤ 4) ∧
    (∀ (needsFix fixApplied : Nat → Bool) (k : Nat), k < 3 →
      fixApplied (k + 1) = false →
      runnerExecutionCount needsFix fixApplied ≤ k + 1) := by
  constructor
  · intro nf fa
    show autoFixAux nf fa 3 0 1 (nf 1) ≤ 4
    have h := autoFixAux_le nf fa 3 0 1 (nf 1)
    omega
  · intro nf fa k hk hfa
    show autoFixAux nf fa 3 0 1 (nf 1) ≤ k + 1
    have h := autoFixAux_stop nf fa 3 0 1 (nf 1) k hk (by simpa using hfa)
    omega

/-- Witness for the amended C3: when the very first attempt applies no fix,
only the initial execution happens. -/
theorem autofix_loop_bounds_witness :
    runnerExecutionCount (fun _ => true) (fun _ => false) ≤ 4 ∧
    runnerExecutionCount (fun _ => true) (fun _ => false) ≤ 1 :=
  ⟨autofix_loop_bounds.1 (fun _ => true) (fun _ => false),
   autofix_loop_bounds.2 (fun _ => true) (fun _ => false) 0 (by norm_num) rfl⟩

end CodeAgent
